import Mathlib

/-!
# Hermes — Automated Asynchronous REST API Monitoring: verification

A shallow embedding, in Lean 4, of the Hermes monitoring system
(IsithaT/MCP-Hackathon): the key-generation server (`keygenServer/server/server.ts`),
the persisted schema (`schema.sql`), and the monitoring core (Validator,
Scheduler Core, Retrieval Service, Retention Sweeper).  The key-generation
server and the SQL schema are embedded directly from their sources; the
monitoring core's implementation (the Gradio MCP server and the cleanup job)
is not included in the repository snapshot, so those components are modelled
from the specification, as flagged on each definition.

Time is modelled as natural numbers counting minutes (the schema stores
`schedule_interval_minutes`); JSON request/response bodies are modelled as
structures of optional fields.
-/

namespace Hermes

/-! ## Key-generation server (`keygenServer/server/server.ts`) -/

/-- A row of the key store (`prisma.key`): an email and its generated API
key, as created by `/api/addKey`. -/
structure Key where
  email : String
  apiKey : String
  deriving Repr, DecidableEq

/-- JSON body of a `/api/verifyKey` request: the `apiKey` field is either
absent (`none`) or a string (possibly empty). -/
structure VerifyKeyBody where
  apiKey : Option String
  deriving Repr, DecidableEq

/-- JSON body of a `/api/addKey` request. -/
structure AddKeyBody where
  email : Option String
  deriving Repr, DecidableEq

/-- An HTTP response of the key-generation server, with the JSON body's
optional fields flattened: `error`, `valid`, `message`, `apiKey` appear in
the body exactly when they are `some`.  `express` sends status 200 when
`res.status` is not called. -/
structure ServerResponse where
  status : Nat
  error : Option String
  valid : Option Bool
  message : Option String
  apiKey : Option String
  deriving Repr, DecidableEq

/-- `prisma.key.findFirst` with a `where` filter on `apiKey`: the first
stored key whose `apiKey` equals the query. -/
def findFirstKey (store : List Key) (k : String) : Option Key :=
  store.find? (fun row => row.apiKey = k)

/-- The `/api/verifyKey` handler (server.ts lines 54–85).  The guard
`if (!apiKey)` rejects every falsy value, so both an absent `apiKey` field
and an empty-string `apiKey` answer 400 with an error; otherwise no
matching row → 401 with `valid: false`, a matching row → 200 with
`valid: true`.  Returns the response paired with the (unchanged) key
store. -/
def verifyKey (store : List Key) (body : VerifyKeyBody) :
    ServerResponse × List Key :=
  match body.apiKey with
  | none =>
    ({ status := 400, error := some "API key is required",
       valid := none, message := none, apiKey := none }, store)
  | some k =>
    if k = "" then
      ({ status := 400, error := some "API key is required",
         valid := none, message := none, apiKey := none }, store)
    else
      match findFirstKey store k with
      | none =>
        ({ status := 401, error := none, valid := some false,
           message := none, apiKey := none }, store)
      | some _ =>
        ({ status := 200, error := none, valid := some true,
           message := none, apiKey := none }, store)

/-- One lowercase hexadecimal digit, as produced by Node's
`Buffer.toString with encoding hex`. -/
def hexDigit (n : Nat) : Char :=
  if n < 10 then Char.ofNat (48 + n) else Char.ofNat (87 + n)

/-- The two hexadecimal digits of one byte. -/
def hexByte (b : Nat) : List Char :=
  [hexDigit (b / 16), hexDigit (b % 16)]

/-- Hexadecimal encoding of a byte sequence, two digits per byte. -/
def hexEncode (bs : List Nat) : String :=
  String.mk ((bs.map hexByte).flatten)

/-- `generateApiKey` (server.ts lines 49–51):
`crypto.randomBytes(32).toString` in hex encoding.  The 32 random bytes are
passed explicitly. -/
def generateApiKey (randomBytes : List Nat) : String :=
  hexEncode randomBytes

/-- The `/api/addKey` handler (server.ts lines 90–120).  The guard
`if (!email)` rejects every falsy value, so both an absent `email` field
and an empty-string `email` answer 400 with an error and leave the store
unchanged; otherwise generate a key, `prisma.key.create` the row, and
respond with the created row's `apiKey`. -/
def addKey (store : List Key) (body : AddKeyBody) (randomBytes : List Nat) :
    ServerResponse × List Key :=
  match body.email with
  | none =>
    ({ status := 400, error := some "Email is required",
       valid := none, message := none, apiKey := none }, store)
  | some e =>
    if e = "" then
      ({ status := 400, error := some "Email is required",
         valid := none, message := none, apiKey := none }, store)
    else
      let newKey : Key := { email := e, apiKey := generateApiKey randomBytes }
      ({ status := 200, error := none, valid := none,
         message := some "API key generated successfully",
         apiKey := some newKey.apiKey }, store ++ [newKey])

/-! ## Persisted schema (`schema.sql`) -/

/-- A foreign-key declaration of the SQL schema. -/
structure ForeignKey where
  childTable : String
  childColumn : String
  parentTable : String
  parentColumn : String
  onDeleteCascade : Bool
  deriving Repr, DecidableEq

/-- The column of `api_configurations` that is the storage-internal
surrogate: `id SERIAL PRIMARY KEY`. -/
def surrogateColumn : String := "id"

/-- The business-level identifier column of `api_configurations`:
`config_id INTEGER NOT NULL UNIQUE` in the primary schema. -/
def businessColumn : String := "config_id"

/-- The foreign key of `api_call_results` in the primary schema
(schema.sql lines 40–47): `config_id INTEGER REFERENCES
api_configurations(config_id) ON DELETE CASCADE`. -/
def resultConfigFK : ForeignKey :=
  { childTable := "api_call_results", childColumn := "config_id",
    parentTable := "api_configurations", parentColumn := "config_id",
    onDeleteCascade := true }

/-- The foreign key of `api_call_results` in the legacy schema variant
(schema.sql lines 112–119, also in the unnamed schema copy): `config_id
INTEGER REFERENCES api_configurations(id) ON DELETE CASCADE` — it
references the surrogate row id. -/
def resultConfigFKLegacy : ForeignKey :=
  { childTable := "api_call_results", childColumn := "config_id",
    parentTable := "api_configurations", parentColumn := "id",
    onDeleteCascade := true }

/-- Every declaration of the Result-to-Configuration foreign key present in
the repository's schema files. -/
def resultForeignKeys : List ForeignKey :=
  [resultConfigFK, resultConfigFKLegacy]

/-! ## Monitoring core

The monitoring core (Validator, Scheduler Core, Retrieval Service,
Retention Sweeper — the Gradio MCP server and the cleanup job) is not
included in the repository snapshot; only its schema, README and Dockerfiles
are.  The definitions below are therefore modelled from the specification,
over the persisted shapes of `schema.sql`.  Time is in minutes. -/

/-- Outcome of one call of the HTTP capability: any received response
(status and body), or a raised transport error. -/
inductive HttpOutcome where
  | response (status : Nat) (body : String)
  | transportError (msg : String)
  deriving Repr, DecidableEq

/-- `true` exactly when the outcome is a received HTTP response. -/
def HttpOutcome.isResponse : HttpOutcome → Bool
  | .response _ _ => true
  | .transportError _ => false

/-- Modelled from the spec: a row of `api_configurations` (primary schema),
the durable record of one monitored endpoint; the monitoring core's data
layer is not in the repository snapshot. -/
structure Config where
  config_id : Nat
  mcp_api_key : String
  name : String
  method : String
  base_url : String
  endpoint : String
  is_active : Bool
  schedule_interval_minutes : Nat
  start_at : Nat
  stop_at : Nat
  created_at : Nat
  deriving Repr, DecidableEq

/-- Modelled from the spec: a row of `api_call_results`, the outcome of one
executed (or attempted) poll; the monitoring core's data layer is not in
the repository snapshot. -/
structure CallResult where
  config_id : Nat
  response_data : Option String
  is_successful : Bool
  error_message : Option String
  called_at : Nat
  deriving Repr, DecidableEq

/-- Modelled from the spec: the in-memory Job, the runtime projection of an
active Configuration inside the Scheduler Core (spec section 3); the
scheduler implementation is not in the repository snapshot. -/
structure Job where
  config_id : Nat
  next_fire_at : Nat
  interval : Nat
  stop_at : Nat
  deriving Repr, DecidableEq

/-- Modelled from the spec: the state the Scheduler Core acts on — the two
persisted relations plus the in-memory active Job set. -/
structure SchedState where
  configs : List Config
  results : List CallResult
  jobs : List Job
  deriving Repr, DecidableEq

/-- The stored Results belonging to one Configuration. -/
def resultsFor (s : SchedState) (cid : Nat) : List CallResult :=
  s.results.filter (fun r => r.config_id = cid)

/-- The in-memory Jobs for one Configuration. -/
def jobsFor (s : SchedState) (cid : Nat) : List Job :=
  s.jobs.filter (fun j => j.config_id = cid)

/-- The stored Configuration with the given id, if any. -/
def findConfig (s : SchedState) (cid : Nat) : Option Config :=
  s.configs.find? (fun c => c.config_id = cid)

/-- Whether the store shows the Configuration as active (false when the id
is unknown). -/
def configIsActive (s : SchedState) (cid : Nat) : Bool :=
  match findConfig s cid with
  | some c => c.is_active
  | none => false

/-- Flip the `is_active` flag of one Configuration in the store. -/
def setActive (configs : List Config) (cid : Nat) (b : Bool) : List Config :=
  configs.map (fun c => if c.config_id = cid then { c with is_active := b } else c)

/-- Modelled from the spec: execute the HTTP call of one due Job and build
its Result row (spec section 4.2 steps 2–3): any received response is
recorded with `is_successful = true` (its body as `response_data`,
regardless of status code); a transport error is recorded with
`is_successful = false` and the error message.  `called_at` is the
execution time. -/
def execJob (http : Nat → HttpOutcome) (now : Nat) (j : Job) : CallResult :=
  match http j.config_id with
  | .response _ body =>
    { config_id := j.config_id, response_data := some body,
      is_successful := true, error_message := none, called_at := now }
  | .transportError msg =>
    { config_id := j.config_id, response_data := none,
      is_successful := false, error_message := some msg, called_at := now }

/-- A Job is due when its `next_fire_at` has been reached. -/
def Job.due (j : Job) (now : Nat) : Bool :=
  j.next_fire_at ≤ now

/-- A due Job fires (executes its call) when the stop time has not been
reached; a due Job whose stop time has passed is retired without firing. -/
def Job.fires (j : Job) (now : Nat) : Bool :=
  j.due now && now < j.stop_at

/-- The Jobs that fire at this tick. -/
def firedJobs (s : SchedState) (now : Nat) : List Job :=
  s.jobs.filter (fun j => j.fires now)

/-- The Result rows a tick inserts: one per fired Job. -/
def tickResults (s : SchedState) (now : Nat) (http : Nat → HttpOutcome) :
    List CallResult :=
  (firedJobs s now).map (execJob http now)

/-- The ids of the Configurations a tick retires: due Jobs whose stop time
has been reached (retired without firing, spec section 4.2 step 1), and
fired Jobs whose advanced `next_fire_at` reaches the stop time (retired
after the write, spec section 4.2 step 4). -/
def tickRetiredIds (s : SchedState) (now : Nat) : List Nat :=
  (s.jobs.filter (fun j => j.due now && j.stop_at ≤ now)).map (fun j => j.config_id)
    ++ (s.jobs.filter (fun j =>
         j.fires now && j.stop_at ≤ j.next_fire_at + j.interval)).map
        (fun j => j.config_id)

/-- The surviving Job set after a tick: Jobs not yet due are kept as they
are; due Jobs past their stop time are dropped; fired Jobs advance
`next_fire_at` by their interval and are dropped when the advance reaches
the stop time. -/
def stepJob (now : Nat) (j : Job) : Option Job :=
  if j.due now then
    if j.stop_at ≤ now then none
    else if j.stop_at ≤ j.next_fire_at + j.interval then none
    else some { j with next_fire_at := j.next_fire_at + j.interval }
  else some j

/-- Modelled from the spec: one pass of the Scheduler Core's `tick()` (spec
section 4.2); the scheduler implementation is not in the repository
snapshot.  Every due Job is processed: retired unexecuted when `now` has
reached its stop time, otherwise its call is executed, its Result appended,
its `next_fire_at` advanced, and it is retired when the advance reaches the
stop time.  Retiring flips the Configuration's `is_active` to false. -/
def tick (s : SchedState) (now : Nat) (http : Nat → HttpOutcome) : SchedState :=
  { configs := s.configs.map (fun c =>
      if c.config_id ∈ tickRetiredIds s now then
        { c with is_active := false }
      else c),
    results := s.results ++ tickResults s now http,
    jobs := s.jobs.filterMap (stepJob now) }

/-- The result of an `activate` or `deactivate` call. -/
inductive ActOutcome where
  | ok
  | notFound
  | forbidden
  | windowExpired
  deriving Repr, DecidableEq

/-- Modelled from the spec: the Scheduler Core's
`activate(config_id, tenant_key)` (spec section 4.2); the scheduler
implementation is not in the repository snapshot.  Loads the Configuration
(else `notFound`), checks the tenant key owns it (else `forbidden`),
returns a no-op success when already active, fails with `windowExpired`
when `stop_at` is already past, and otherwise flips `is_active`, computes
`next_fire_at = max(now, start_at)` and inserts the Job. -/
def activate (s : SchedState) (cid : Nat) (tenant : String) (now : Nat) :
    ActOutcome × SchedState :=
  match findConfig s cid with
  | none => (.notFound, s)
  | some c =>
    if c.mcp_api_key ≠ tenant then (.forbidden, s)
    else if c.is_active then (.ok, s)
    else if c.stop_at ≤ now then (.windowExpired, s)
    else
      (.ok,
       { configs := setActive s.configs cid true,
         results := s.results,
         jobs := { config_id := cid, next_fire_at := max now c.start_at,
                   interval := c.schedule_interval_minutes,
                   stop_at := c.stop_at } :: s.jobs })

/-- One tick input: the wall-clock time of the tick and the HTTP capability
as observed during it. -/
structure TickInput where
  now : Nat
  http : Nat → HttpOutcome

/-- Run the Scheduler Core over a sequence of ticks. -/
def tickSeq (s : SchedState) : List TickInput → SchedState
  | [] => s
  | t :: ts => tickSeq (tick s t.now t.http) ts

/-- Run ticks at every minute starting from `t0`: at `t0`, `t0 + 1`, …,
`t0 + n - 1`.  The HTTP capability may vary with time. -/
def runTicks (s : SchedState) (http : Nat → Nat → HttpOutcome) (t0 : Nat) :
    Nat → SchedState
  | 0 => s
  | n + 1 => runTicks (tick s t0 (http t0)) http (t0 + 1) n

/-! ## Validator -/

/-- A draft configuration submitted to the Validator (spec section 4.1). -/
structure Draft where
  name : String
  method : String
  base_url : String
  endpoint : String
  schedule_interval_minutes : Nat
  start_at : Nat
  stop_at : Nat
  deriving Repr, DecidableEq

/-- The allowed HTTP methods of a draft. -/
def allowedMethods : List String :=
  ["GET", "POST", "PUT", "DELETE", "PATCH"]

/-- Modelled from the spec: the Validator's input constraints (spec section
4.1) — method in the allowed set, base URL an absolute URL (modelled as an
http or https scheme), interval positive, window ordered; the validator
implementation is not in the repository snapshot. -/
def Draft.wellFormed (d : Draft) : Bool :=
  allowedMethods.contains d.method
    && (List.isPrefixOf "http://".data d.base_url.data
        || List.isPrefixOf "https://".data d.base_url.data)
    && 0 < d.schedule_interval_minutes
    && d.start_at < d.stop_at

/-- The validation errors of spec section 4.1. -/
inductive ValidateError where
  | invalidConfiguration
  | upstreamUnreachable (msg : String)
  | upstreamRejected (status : Nat)
  deriving Repr, DecidableEq

/-- The Configuration row the Validator persists for an accepted draft:
`is_active = false`, schedule copied from the draft. -/
def draftConfig (d : Draft) (tenant : String) (newId : Nat) (now : Nat) :
    Config :=
  { config_id := newId, mcp_api_key := tenant, name := d.name,
    method := d.method, base_url := d.base_url, endpoint := d.endpoint,
    is_active := false,
    schedule_interval_minutes := d.schedule_interval_minutes,
    start_at := d.start_at, stop_at := d.stop_at, created_at := now }

/-- Modelled from the spec: the Validator's
`validate(tenant_key, draft_configuration)` (spec section 4.1); the
validator implementation is not in the repository snapshot.  A malformed
draft is rejected with nothing persisted; the single trial call's outcome
is passed in: a transport error yields `upstreamUnreachable`, a non-2xx
status yields `upstreamRejected`, both persisting nothing; a 2xx response
persists exactly one Configuration with `is_active = false` and returns the
new `config_id` with the raw sample body.  Returns the outcome paired with
the updated Configuration store. -/
def validate (configs : List Config) (tenant : String) (d : Draft)
    (newId : Nat) (now : Nat) (trial : HttpOutcome) :
    Except ValidateError (Nat × String) × List Config :=
  if ¬ d.wellFormed then (.error .invalidConfiguration, configs)
  else
    match trial with
    | .transportError msg => (.error (.upstreamUnreachable msg), configs)
    | .response status body =>
      if 200 ≤ status ∧ status < 300 then
        (.ok (newId, body), configs ++ [draftConfig d tenant newId now])
      else
        (.error (.upstreamRejected status), configs)

/-! ## Retrieval Service -/

/-- The verbosity modes of the Retrieval Service. -/
inductive Mode where
  | summary
  | details
  | full
  deriving Repr, DecidableEq

/-- The summary mode's cap on returned Results (spec section 4.3: last N,
e.g. 10). -/
def summaryCap : Nat := 10

/-- The last `n` elements of a list, in stored order. -/
def lastN (n : Nat) (l : List CallResult) : List CallResult :=
  l.drop (l.length - n)

/-- The errors of the Retrieval Service. -/
inductive GetError where
  | notFound
  | forbidden
  deriving Repr, DecidableEq

/-- A projection returned by the Retrieval Service: the Configuration and
the selected Results (summary: the capped most-recent slice; details and
full: every Result). -/
structure Projection where
  config : Config
  projResults : List CallResult
  deriving Repr, DecidableEq

/-- Modelled from the spec: the Retrieval Service's
`get(config_id, tenant_key, mode)` (spec section 4.3); the retrieval
implementation is not in the repository snapshot.  Unknown id yields
`notFound`, a tenant key that does not own the Configuration yields
`forbidden`; `summary` returns the last `summaryCap` Results, `details`
and `full` return them all.  Read-only. -/
def get (s : SchedState) (cid : Nat) (tenant : String) (mode : Mode) :
    Except GetError Projection :=
  match findConfig s cid with
  | none => .error .notFound
  | some c =>
    if c.mcp_api_key ≠ tenant then .error .forbidden
    else
      match mode with
      | .summary => .ok { config := c, projResults := lastN summaryCap (resultsFor s cid) }
      | .details => .ok { config := c, projResults := resultsFor s cid }
      | .full => .ok { config := c, projResults := resultsFor s cid }

/-! ## Retention Sweeper -/

/-- The retention window: 14 days, in minutes. -/
def retentionWindow : Nat := 14 * 24 * 60

/-- The timestamp of a Configuration's most recent activity: its latest
Result's `called_at`, or its creation time when it has no Results. -/
def lastActivity (results : List CallResult) (c : Config) : Nat :=
  match (results.filter (fun r => r.config_id = c.config_id)).map
      (fun r => r.called_at) with
  | [] => c.created_at
  | t :: ts => (t :: ts).foldl max 0

/-- A Configuration is stale at `now` when its most recent activity is
older than the retention window: strictly before `now - retentionWindow`. -/
def stale (results : List CallResult) (now : Nat) (c : Config) : Bool :=
  lastActivity results c + retentionWindow < now

/-- Modelled from the spec: the Retention Sweeper's `sweep(now)` (spec
section 4.4) and the cleanup job (its Dockerfile runs a cleanup script not
in the repository snapshot).  Deletes every stale Configuration; the
deletion cascades to that Configuration's Results through the
`ON DELETE CASCADE` foreign key of `schema.sql`.  Returns the surviving
Configurations, the surviving Results, and the number of Configurations
deleted. -/
def sweep (configs : List Config) (results : List CallResult) (now : Nat) :
    List Config × List CallResult × Nat :=
  let deadIds := (configs.filter (stale results now)).map (fun c => c.config_id)
  (configs.filter (fun c => ! stale results now c),
   results.filter (fun r => r.config_id ∉ deadIds),
   (configs.filter (stale results now)).length)

/-! ## Helper lemmas -/

/-- The sixteen lowercase hexadecimal characters. -/
def hexChars : List Char := "0123456789abcdef".data

theorem hexDigit_mem_hexChars (n : Nat) (h : n < 16) :
    hexDigit n ∈ hexChars := by
  interval_cases n <;> decide

theorem hexByte_length (b : Nat) : (hexByte b).length = 2 := rfl

theorem hexByte_mem_hexChars (b : Nat) (hb : b < 256) (c : Char)
    (hc : c ∈ hexByte b) : c ∈ hexChars := by
  rcases hc with _ | ⟨_, _ | ⟨_, h⟩⟩
  · exact hexDigit_mem_hexChars _ (by omega)
  · exact hexDigit_mem_hexChars _ (by omega)
  · cases h

theorem hexEncode_length (bs : List Nat) :
    (hexEncode bs).length = 2 * bs.length := by
  induction bs with
  | nil => rfl
  | cons b bs ih =>
    simp only [hexEncode, String.length] at ih ⊢
    simp only [List.map_cons, List.flatten_cons, List.length_append,
      hexByte_length, List.length_cons, ih]
    omega

theorem hexEncode_mem (bs : List Nat) (hb : ∀ b ∈ bs, b < 256) (c : Char)
    (hc : c ∈ (hexEncode bs).data) : c ∈ hexChars := by
  simp only [hexEncode] at hc
  rcases List.mem_flatten.mp hc with ⟨l, hl, hcl⟩
  rcases List.mem_map.mp hl with ⟨b, hbmem, rfl⟩
  exact hexByte_mem_hexChars b (hb b hbmem) c hcl

/-! ## Claim theorems: key-generation server and schema -/

/-- C9 (counterexample): a request whose body carries `apiKey` present but
equal to the empty string matches no stored Key record, yet the endpoint
responds 400 (the JavaScript falsy guard), not 401 with `valid: false` as
the claim requires for a present-but-unmatched key. -/
theorem verifyKey_empty_key_counterexample :
    ({ apiKey := some "" } : VerifyKeyBody).apiKey = some "" ∧
    findFirstKey [] "" = none ∧
    (verifyKey [] { apiKey := some "" }).1.status = 400 ∧
    (verifyKey [] { apiKey := some "" }).1.status ≠ 401 ∧
    (verifyKey [] { apiKey := some "" }).1.valid ≠ some false := by
  decide

/-- C9 (amended): `/api/verifyKey` responds 400 when the `apiKey` field is
absent or the empty string (both falsy in JavaScript); when a non-empty
`apiKey` is given that matches no stored Key record it responds 401 with
`valid: false`; it responds `valid: true` exactly when a non-empty
`apiKey` is given and a Key record with that apiKey exists; and the key
store is never modified. -/
theorem verifyKey_contract (store : List Key) (body : VerifyKeyBody) :
    (body.apiKey = none → (verifyKey store body).1.status = 400) ∧
    (body.apiKey = some "" → (verifyKey store body).1.status = 400) ∧
    (∀ k, body.apiKey = some k → k ≠ "" → findFirstKey store k = none →
      (verifyKey store body).1.status = 401 ∧
      (verifyKey store body).1.valid = some false) ∧
    ((verifyKey store body).1.valid = some true ↔
      ∃ k row, body.apiKey = some k ∧ k ≠ "" ∧ findFirstKey store k = some row) ∧
    (verifyKey store body).2 = store := by
  rcases hb : body.apiKey with _ | k
  · have hv : verifyKey store body =
        ({ status := 400, error := some "API key is required",
           valid := none, message := none, apiKey := none }, store) := by
      simp [verifyKey, hb]
    refine ⟨fun _ => by rw [hv], fun _ => by rw [hv], ?_, ?_, by rw [hv]⟩
    · intro k hk
      exact Option.noConfusion hk
    · rw [hv]
      simp
  · by_cases hk : k = ""
    · subst hk
      have hv : verifyKey store body =
          ({ status := 400, error := some "API key is required",
             valid := none, message := none, apiKey := none }, store) := by
        simp [verifyKey, hb]
      refine ⟨fun _ => by rw [hv], fun _ => by rw [hv], ?_, ?_, by rw [hv]⟩
      · intro k' hk' hne
        injection hk' with h
        exact absurd h.symm hne
      · rw [hv]
        simp
    · rcases hf : findFirstKey store k with _ | row
      · have hv : verifyKey store body =
            ({ status := 401, error := none, valid := some false,
               message := none, apiKey := none }, store) := by
          simp [verifyKey, hb, hk, hf]
        refine ⟨?_, ?_, ?_, ?_, by rw [hv]⟩
        · intro h; exact Option.noConfusion h
        · intro h; injection h with h'; exact absurd h' hk
        · intro k' hk' hne hf'
          rw [hv]
          exact ⟨rfl, rfl⟩
        · rw [hv]
          constructor
          · intro h; simp at h
          · rintro ⟨k', row, hk', hne, hf'⟩
            injection hk' with h'
            rw [← h'] at hf'
            rw [hf] at hf'
            exact Option.noConfusion hf'
      · have hv : verifyKey store body =
            ({ status := 200, error := none, valid := some true,
               message := none, apiKey := none }, store) := by
          simp [verifyKey, hb, hk, hf]
        refine ⟨?_, ?_, ?_, ?_, by rw [hv]⟩
        · intro h; exact Option.noConfusion h
        · intro h; injection h with h'; exact absurd h' hk
        · intro k' hk' hne hf'
          injection hk' with h'
          rw [← h'] at hf'
          rw [hf] at hf'
          exact Option.noConfusion hf'
        · rw [hv]
          constructor
          · intro _
            exact ⟨k, row, rfl, hk, hf⟩
          · intro _
            rfl

/-- C9 witness: a concrete verification request against a one-key store. -/
theorem verifyKey_contract_witness :
    (({ apiKey := some "deadbeef" } : VerifyKeyBody).apiKey = none →
      (verifyKey [{ email := "a@b.c", apiKey := "deadbeef" }]
        { apiKey := some "deadbeef" }).1.status = 400) ∧
    (({ apiKey := some "deadbeef" } : VerifyKeyBody).apiKey = some "" →
      (verifyKey [{ email := "a@b.c", apiKey := "deadbeef" }]
        { apiKey := some "deadbeef" }).1.status = 400) ∧
    (∀ k, ({ apiKey := some "deadbeef" } : VerifyKeyBody).apiKey = some k →
      k ≠ "" →
      findFirstKey [{ email := "a@b.c", apiKey := "deadbeef" }] k = none →
      (verifyKey [{ email := "a@b.c", apiKey := "deadbeef" }]
        { apiKey := some "deadbeef" }).1.status = 401 ∧
      (verifyKey [{ email := "a@b.c", apiKey := "deadbeef" }]
        { apiKey := some "deadbeef" }).1.valid = some false) ∧
    ((verifyKey [{ email := "a@b.c", apiKey := "deadbeef" }]
        { apiKey := some "deadbeef" }).1.valid = some true ↔
      ∃ k row, ({ apiKey := some "deadbeef" } : VerifyKeyBody).apiKey = some k ∧
        k ≠ "" ∧
        findFirstKey [{ email := "a@b.c", apiKey := "deadbeef" }] k = some row) ∧
    (verifyKey [{ email := "a@b.c", apiKey := "deadbeef" }]
      { apiKey := some "deadbeef" }).2 =
      [{ email := "a@b.c", apiKey := "deadbeef" }] :=
  verifyKey_contract [{ email := "a@b.c", apiKey := "deadbeef" }]
    { apiKey := some "deadbeef" }

/-- C10 (counterexample): a request whose body carries `email` present but
equal to the empty string creates no Key record and answers 400 (the
JavaScript falsy guard), although the claim requires every request with an
`email` field to create exactly one record. -/
theorem addKey_empty_email_counterexample :
    ({ email := some "" } : AddKeyBody).email = some "" ∧
    (addKey [] { email := some "" } (List.replicate 32 0)).1.status = 400 ∧
    (addKey [] { email := some "" } (List.replicate 32 0)).2 = [] := by
  decide

/-- C10 (amended): `/api/addKey` responds 400 and leaves the key store
unchanged when the `email` field is absent or the empty string (both falsy
in JavaScript); for a non-empty `email` it appends exactly one Key record,
the `apiKey` in the response body equals the stored record's `apiKey`, and
that key — the hex encoding of the 32 random bytes — is a 64-character
hexadecimal string. -/
theorem addKey_contract (store : List Key) (body : AddKeyBody)
    (randomBytes : List Nat) (hlen : randomBytes.length = 32)
    (hbytes : ∀ b ∈ randomBytes, b < 256) :
    (body.email = none →
      (addKey store body randomBytes).1.status = 400 ∧
      (addKey store body randomBytes).2 = store) ∧
    (body.email = some "" →
      (addKey store body randomBytes).1.status = 400 ∧
      (addKey store body randomBytes).2 = store) ∧
    (∀ e, body.email = some e → e ≠ "" →
      (addKey store body randomBytes).2 =
        store ++ [{ email := e, apiKey := generateApiKey randomBytes }] ∧
      (addKey store body randomBytes).1.apiKey =
        some (generateApiKey randomBytes) ∧
      (generateApiKey randomBytes).length = 64 ∧
      ∀ c ∈ (generateApiKey randomBytes).data, c ∈ hexChars) := by
  refine ⟨?_, ?_, ?_⟩
  · intro h; simp [addKey, h]
  · intro h; simp [addKey, h]
  · intro e he hne
    have hv : addKey store body randomBytes =
        ({ status := 200, error := none, valid := none,
           message := some "API key generated successfully",
           apiKey := some (generateApiKey randomBytes) },
         store ++ [{ email := e, apiKey := generateApiKey randomBytes }]) := by
      simp [addKey, he, hne]
    refine ⟨by rw [hv], by rw [hv], ?_, ?_⟩
    · simp [generateApiKey, hexEncode_length, hlen]
    · exact fun c hc => hexEncode_mem randomBytes hbytes c hc

/-- C10 witness: a concrete key creation with 32 concrete random bytes. -/
theorem addKey_contract_witness :
    (List.replicate 32 171).length = 32 ∧
    (∀ b ∈ List.replicate 32 171, b < 256) ∧
    (∀ e, ({ email := some "a@b.c" } : AddKeyBody).email = some e → e ≠ "" →
      (addKey [] { email := some "a@b.c" } (List.replicate 32 171)).2 =
        [] ++ [{ email := e, apiKey := generateApiKey (List.replicate 32 171) }] ∧
      (addKey [] { email := some "a@b.c" } (List.replicate 32 171)).1.apiKey =
        some (generateApiKey (List.replicate 32 171)) ∧
      (generateApiKey (List.replicate 32 171)).length = 64 ∧
      ∀ c ∈ (generateApiKey (List.replicate 32 171)).data, c ∈ hexChars) :=
  ⟨by decide, by decide,
   (addKey_contract [] { email := some "a@b.c" } (List.replicate 32 171)
     (by decide) (by decide)).2.2⟩

/-- C6 (counterexample): the legacy schema variant (schema.sql lines
112–119) declares the Result foreign key against the parent's surrogate
row id, not the business-level config_id, so the business-key shape does
not hold for every persisted Result relation in the repository. -/
theorem result_fk_surrogate_variant :
    resultConfigFKLegacy ∈ resultForeignKeys ∧
    resultConfigFKLegacy.childTable = "api_call_results" ∧
    resultConfigFKLegacy.parentColumn = surrogateColumn ∧
    resultConfigFKLegacy.parentColumn ≠ businessColumn := by
  decide

/-- C6 (amended): in the primary schema (schema.sql lines 21–47, the one
that declares `config_id` as a NOT NULL UNIQUE business identifier), the
Result relation references its Configuration through the business-level
`config_id` with cascade delete, not through the surrogate row id; the
legacy schema variant at lines 112–119, however, references the
surrogate. -/
theorem result_fk_business_key_primary :
    resultConfigFK.childTable = "api_call_results" ∧
    resultConfigFK.childColumn = businessColumn ∧
    resultConfigFK.parentTable = "api_configurations" ∧
    resultConfigFK.parentColumn = businessColumn ∧
    resultConfigFK.parentColumn ≠ surrogateColumn ∧
    resultConfigFK.onDeleteCascade = true := by
  decide

/-! ## Claim theorems: Scheduler Core success flags, Validator, Sweeper,
Retrieval -/

/-- C1: every Result row inserted by a scheduled tick has
`is_successful = true` exactly when any HTTP response was received from the
target (regardless of its status code), and `is_successful = false` exactly
when the call failed at transport level (timeout, DNS failure, connection
reset). -/
theorem tick_result_success_iff_reachable (s : SchedState) (now : Nat)
    (http : Nat → HttpOutcome) (r : CallResult)
    (hmem : r ∈ (tick s now http).results) (hnew : r ∉ s.results) :
    (r.is_successful = true ↔ (http r.config_id).isResponse = true) ∧
    (r.is_successful = false ↔ ∃ msg, http r.config_id = .transportError msg) := by
  have hr : r ∈ tickResults s now http := by
    simp only [tick] at hmem
    rcases List.mem_append.mp hmem with h | h
    · exact absurd h hnew
    · exact h
  rcases List.mem_map.mp hr with ⟨j, hj, rfl⟩
  rcases hh : http j.config_id with ⟨st, body⟩ | ⟨msg⟩
  · simp [execJob, hh, HttpOutcome.isResponse]
  · simp [execJob, hh, HttpOutcome.isResponse]

/-- A fixture Job due at minute 5. -/
def demoJob : Job :=
  { config_id := 7, next_fire_at := 5, interval := 3, stop_at := 100 }

/-- A fixture Configuration owning `demoJob`. -/
def demoConfig : Config :=
  { config_id := 7, mcp_api_key := "abc123xyz", name := "Track NVDA Price",
    method := "GET", base_url := "https://api.example.com",
    endpoint := "/stocks/nvda", is_active := true,
    schedule_interval_minutes := 3, start_at := 0, stop_at := 100,
    created_at := 0 }

/-- A fixture scheduler state with one active Job. -/
def demoState : SchedState :=
  { configs := [demoConfig], results := [], jobs := [demoJob] }

/-- A fixture HTTP capability answering 503 to every call: a received
response with a non-2xx status. -/
def demoHttp : Nat → HttpOutcome :=
  fun _ => .response 503 "Service Unavailable"

/-- The Result the fixture tick inserts. -/
def demoResult : CallResult :=
  { config_id := 7, response_data := some "Service Unavailable",
    is_successful := true, error_message := none, called_at := 5 }

/-- C1 witness: a tick against a target answering 503 still records
`is_successful = true`. -/
theorem tick_result_success_iff_reachable_witness :
    (demoResult ∈ (tick demoState 5 demoHttp).results ∧
     demoResult ∉ demoState.results) ∧
    ((demoResult.is_successful = true ↔
        (demoHttp demoResult.config_id).isResponse = true) ∧
     (demoResult.is_successful = false ↔
        ∃ msg, demoHttp demoResult.config_id = .transportError msg)) :=
  ⟨⟨by decide, by decide⟩,
   tick_result_success_iff_reachable demoState 5 demoHttp demoResult
     (by decide) (by decide)⟩

/-- C2: for a well-formed draft, a transport-level trial failure or a
non-2xx trial status returns an Error and persists no Configuration; a 2xx
trial persists exactly one new Configuration with `is_active = false` and
returns its `config_id` with the raw sample response body. -/
theorem validate_persists_iff_trial_ok (configs : List Config)
    (tenant : String) (d : Draft) (newId now : Nat) (trial : HttpOutcome)
    (hwf : d.wellFormed = true) :
    (∀ msg, trial = .transportError msg →
      (validate configs tenant d newId now trial).1 =
        .error (.upstreamUnreachable msg) ∧
      (validate configs tenant d newId now trial).2 = configs) ∧
    (∀ status body, trial = .response status body →
      ¬ (200 ≤ status ∧ status < 300) →
      (validate configs tenant d newId now trial).1 =
        .error (.upstreamRejected status) ∧
      (validate configs tenant d newId now trial).2 = configs) ∧
    (∀ status body, trial = .response status body →
      200 ≤ status → status < 300 →
      (validate configs tenant d newId now trial).1 = .ok (newId, body) ∧
      (validate configs tenant d newId now trial).2 =
        configs ++ [draftConfig d tenant newId now] ∧
      (draftConfig d tenant newId now).is_active = false ∧
      (draftConfig d tenant newId now).config_id = newId ∧
      (validate configs tenant d newId now trial).2.length =
        configs.length + 1) := by
  refine ⟨?_, ?_, ?_⟩
  · intro msg ht
    subst ht
    simp [validate, hwf]
  · intro status body ht hbad
    subst ht
    simp [validate, hwf, hbad]
  · intro status body ht h1 h2
    subst ht
    simp [validate, hwf, h1, h2, draftConfig]

/-- A fixture well-formed draft. -/
def demoDraft : Draft :=
  { name := "Track NVDA Price", method := "GET",
    base_url := "https://api.example.com", endpoint := "/stocks/nvda",
    schedule_interval_minutes := 20, start_at := 0, stop_at := 60 }

/-- C2 witness: validating the fixture draft against a 200 trial response
persists exactly one inactive Configuration and returns its id and the raw
body. -/
theorem validate_persists_iff_trial_ok_witness :
    demoDraft.wellFormed = true ∧
    ((validate [] "abc123xyz" demoDraft 10101 0 (.response 200 "sample")).1 =
       .ok (10101, "sample") ∧
     (validate [] "abc123xyz" demoDraft 10101 0 (.response 200 "sample")).2 =
       [] ++ [draftConfig demoDraft "abc123xyz" 10101 0] ∧
     (draftConfig demoDraft "abc123xyz" 10101 0).is_active = false ∧
     (draftConfig demoDraft "abc123xyz" 10101 0).config_id = 10101 ∧
     (validate [] "abc123xyz" demoDraft 10101 0 (.response 200 "sample")).2.length =
       ([] : List Config).length + 1) :=
  ⟨by decide,
   (validate_persists_iff_trial_ok [] "abc123xyz" demoDraft 10101 0
       (.response 200 "sample") (by decide)).2.2 200 "sample" rfl
     (by decide) (by decide)⟩

/-- C7: `sweep(now)` deletes exactly the Configurations whose most recent
Result timestamp (or creation timestamp when no Results exist) is older
than the 14-day retention window, cascading to their Results; a
Configuration staler than the window is deleted with its Results, a fresh
one is preserved with its Results unchanged. -/
theorem sweep_retention_window (configs : List Config)
    (results : List CallResult) (now : Nat) (c : Config) (r : CallResult)
    (hc : c ∈ configs) (hr : r ∈ results) (hown : r.config_id = c.config_id)
    (huniq : ∀ c2 ∈ configs, c2.config_id = c.config_id → c2 = c) :
    (c ∈ (sweep configs results now).1 ↔
      ¬ (lastActivity results c + retentionWindow < now)) ∧
    (stale results now c = true →
      c ∉ (sweep configs results now).1 ∧
      r ∉ (sweep configs results now).2.1) ∧
    (stale results now c = false →
      c ∈ (sweep configs results now).1 ∧
      r ∈ (sweep configs results now).2.1) := by
  refine ⟨?_, ?_, ?_⟩
  · simp [sweep, List.mem_filter, hc, stale]
  · intro hstale
    constructor
    · simp [sweep, List.mem_filter, hstale]
    · intro hmem
      have hpred := (List.mem_filter.mp hmem).2
      simp only [decide_eq_true_eq] at hpred
      exact hpred (List.mem_map.mpr
        ⟨c, List.mem_filter.mpr ⟨hc, hstale⟩, hown.symm⟩)
  · intro hfresh
    constructor
    · simp [sweep, List.mem_filter, hc, hfresh]
    · refine List.mem_filter.mpr ⟨hr, ?_⟩
      simp only [decide_eq_true_eq]
      intro hdead
      rcases List.mem_map.mp hdead with ⟨c2, hc2, hid⟩
      have hc2mem := (List.mem_filter.mp hc2).1
      have hc2stale := (List.mem_filter.mp hc2).2
      have : c2 = c := huniq c2 hc2mem (hid.trans hown)
      subst this
      rw [hfresh] at hc2stale
      cases hc2stale

/-- A fixture Configuration whose last activity is 15 days old at sweep
time. -/
def staleConfig : Config :=
  { demoConfig with config_id := 1, name := "stale monitor" }

/-- A fixture Configuration whose last activity is 13 days old at sweep
time. -/
def freshConfig : Config :=
  { demoConfig with config_id := 2, name := "fresh monitor" }

/-- The 15-day-old Result of `staleConfig` (sweep time 23040 = 16 days). -/
def staleResult : CallResult :=
  { config_id := 1, response_data := some "old", is_successful := true,
    error_message := none, called_at := 1440 }

/-- The 13-day-old Result of `freshConfig` (sweep time 23040 = 16 days). -/
def freshResult : CallResult :=
  { config_id := 2, response_data := some "recent", is_successful := true,
    error_message := none, called_at := 4320 }

/-- C7 witness: at `now` = minute 23040, the Configuration with a 15-day-old
Result is deleted together with its Result, while the one with a 13-day-old
Result survives with its Result intact. -/
theorem sweep_retention_window_witness :
    (staleConfig ∈ [staleConfig, freshConfig] ∧
     staleResult ∈ [staleResult, freshResult] ∧
     staleResult.config_id = staleConfig.config_id ∧
     (∀ c2 ∈ [staleConfig, freshConfig],
       c2.config_id = staleConfig.config_id → c2 = staleConfig)) ∧
    ((staleConfig ∈
        (sweep [staleConfig, freshConfig] [staleResult, freshResult] 23040).1 ↔
      ¬ (lastActivity [staleResult, freshResult] staleConfig +
           retentionWindow < 23040)) ∧
     (stale [staleResult, freshResult] 23040 staleConfig = true →
       staleConfig ∉
         (sweep [staleConfig, freshConfig] [staleResult, freshResult] 23040).1 ∧
       staleResult ∉
         (sweep [staleConfig, freshConfig] [staleResult, freshResult] 23040).2.1) ∧
     (stale [staleResult, freshResult] 23040 staleConfig = false →
       staleConfig ∈
         (sweep [staleConfig, freshConfig] [staleResult, freshResult] 23040).1 ∧
       staleResult ∈
         (sweep [staleConfig, freshConfig] [staleResult, freshResult] 23040).2.1)) ∧
    stale [staleResult, freshResult] 23040 staleConfig = true ∧
    freshConfig ∈
      (sweep [staleConfig, freshConfig] [staleResult, freshResult] 23040).1 ∧
    freshResult ∈
      (sweep [staleConfig, freshConfig] [staleResult, freshResult] 23040).2.1 :=
  ⟨⟨by decide, by decide, by decide, by decide⟩,
   sweep_retention_window [staleConfig, freshConfig]
     [staleResult, freshResult] 23040 staleConfig staleResult
     (by decide) (by decide) (by decide) (by decide),
   by decide, by decide, by decide⟩

/-- C8: for an owned Configuration, `summary` mode returns at most the
configured cap (10) of the most-recent Results, and `full` mode returns as
many Results as are stored for that Configuration. -/
theorem get_summary_capped_full_total (s : SchedState) (cid : Nat)
    (tenant : String) (c : Config)
    (hfind : findConfig s cid = some c) (hown : c.mcp_api_key = tenant) :
    (∃ p, get s cid tenant .summary = .ok p ∧
      p.projResults.length ≤ summaryCap ∧
      p.projResults = lastN summaryCap (resultsFor s cid)) ∧
    (∃ p, get s cid tenant .full = .ok p ∧
      p.projResults.length = (resultsFor s cid).length) := by
  have hs : get s cid tenant .summary =
      .ok { config := c, projResults := lastN summaryCap (resultsFor s cid) } := by
    simp [get, hfind, hown]
  have hfull : get s cid tenant .full =
      .ok { config := c, projResults := resultsFor s cid } := by
    simp [get, hfind, hown]
  refine ⟨⟨_, hs, ?_, rfl⟩, ⟨_, hfull, rfl⟩⟩
  simp only [lastN, List.length_drop]
  omega

/-- A fixture state holding twelve Results for Configuration 7. -/
def manyResultsState : SchedState :=
  { configs := [demoConfig], jobs := [],
    results := (List.range 12).map (fun t =>
      { config_id := 7, response_data := some "ok", is_successful := true,
        error_message := none, called_at := t }) }

/-- C8 witness: with twelve stored Results, `summary` returns ten and
`full` returns twelve. -/
theorem get_summary_capped_full_total_witness :
    (findConfig manyResultsState 7 = some demoConfig ∧
     demoConfig.mcp_api_key = "abc123xyz") ∧
    ((∃ p, get manyResultsState 7 "abc123xyz" .summary = .ok p ∧
       p.projResults.length ≤ summaryCap ∧
       p.projResults = lastN summaryCap (resultsFor manyResultsState 7)) ∧
     (∃ p, get manyResultsState 7 "abc123xyz" .full = .ok p ∧
       p.projResults.length = (resultsFor manyResultsState 7).length)) ∧
    (resultsFor manyResultsState 7).length = 12 ∧
    (lastN summaryCap (resultsFor manyResultsState 7)).length = 10 :=
  ⟨⟨by decide, by decide⟩,
   get_summary_capped_full_total manyResultsState 7 "abc123xyz" demoConfig
     (by decide) (by decide),
   by decide, by decide⟩

/-! ## Scheduler Core helper lemmas -/

theorem find?_config_map (f : Config → Config)
    (hid : ∀ c, (f c).config_id = c.config_id)
    (l : List Config) (cid : Nat) :
    (l.map f).find? (fun c => c.config_id = cid) =
      (l.find? (fun c => c.config_id = cid)).map f := by
  induction l with
  | nil => rfl
  | cons a l ih =>
    simp only [List.map_cons]
    by_cases h : a.config_id = cid
    · rw [List.find?_cons_of_pos _ (by simp [hid, h]),
        List.find?_cons_of_pos _ (by simp [h])]
      rfl
    · rw [List.find?_cons_of_neg _ (by simp [hid, h]),
        List.find?_cons_of_neg _ (by simp [h]), ih]

theorem findConfig_id (s : SchedState) (cid : Nat) (c : Config)
    (h : findConfig s cid = some c) : c.config_id = cid := by
  have := List.find?_some h
  simpa using this

theorem execJob_config_id (http : Nat → HttpOutcome) (now : Nat) (j : Job) :
    (execJob http now j).config_id = j.config_id := by
  unfold execJob
  rcases http j.config_id with ⟨st, body⟩ | ⟨msg⟩ <;> rfl

theorem stepJob_config_id (now : Nat) (j j' : Job)
    (h : stepJob now j = some j') : j'.config_id = j.config_id := by
  unfold stepJob at h
  by_cases hd : j.due now
  · rw [if_pos hd] at h
    by_cases h1 : j.stop_at ≤ now
    · rw [if_pos h1] at h; cases h
    · rw [if_neg h1] at h
      by_cases h2 : j.stop_at ≤ j.next_fire_at + j.interval
      · rw [if_pos h2] at h; cases h
      · rw [if_neg h2] at h
        cases h
        rfl
  · rw [if_neg hd] at h
    cases h
    rfl

/-- After a tick, a Configuration with no Job in the active set still has
no Job: ticks never admit new Jobs. -/
theorem jobsFor_tick_nil (s : SchedState) (now : Nat)
    (http : Nat → HttpOutcome) (cid : Nat) (h : jobsFor s cid = []) :
    jobsFor (tick s now http) cid = [] := by
  simp only [jobsFor]
  rw [List.filter_eq_nil_iff]
  intro j' hj'
  simp only [tick] at hj'
  rcases List.mem_filterMap.mp hj' with ⟨j, hj, hstep⟩
  simp only [decide_eq_true_eq]
  intro hcid
  have : j ∈ jobsFor s cid := by
    refine List.mem_filter.mpr ⟨hj, ?_⟩
    simp [← stepJob_config_id now j j' hstep, hcid]
  rw [h] at this
  cases this

/-- A tick inserts no Result for a Configuration with no Job in the active
set. -/
theorem resultsFor_tick_nil (s : SchedState) (now : Nat)
    (http : Nat → HttpOutcome) (cid : Nat) (h : jobsFor s cid = []) :
    resultsFor (tick s now http) cid = resultsFor s cid := by
  simp only [resultsFor, tick, List.filter_append]
  have hnil : (tickResults s now http).filter
      (fun r => r.config_id = cid) = [] := by
    rw [List.filter_eq_nil_iff]
    intro r hrmem
    rcases List.mem_map.mp hrmem with ⟨j, hj, rfl⟩
    simp only [decide_eq_true_eq, execJob_config_id]
    intro hcid
    have : j ∈ jobsFor s cid := by
      refine List.mem_filter.mpr ⟨List.mem_of_mem_filter hj, ?_⟩
      simp [hcid]
    rw [h] at this
    cases this
  rw [hnil, List.append_nil]

/-- A tick never reactivates: an inactive Configuration stays inactive. -/
theorem configIsActive_tick (s : SchedState) (now : Nat)
    (http : Nat → HttpOutcome) (cid : Nat)
    (h : configIsActive s cid = false) :
    configIsActive (tick s now http) cid = false := by
  simp only [configIsActive, findConfig, tick] at h ⊢
  rw [find?_config_map _ (fun c => by by_cases hc : c.config_id ∈ tickRetiredIds s now <;> simp [hc])]
  cases hf : s.configs.find? (fun c => c.config_id = cid) with
  | none => rfl
  | some c =>
    rw [hf] at h
    have h2 : c.is_active = false := h
    simp only [Option.map_some']
    by_cases hc : c.config_id ∈ tickRetiredIds s now <;> simp [hc, h2]

/-- Once a Configuration is retired (no Job, inactive), any sequence of
further ticks leaves it inactive, jobless, and adds no Result for it. -/
theorem retired_tickSeq (inputs : List TickInput) (s : SchedState) (cid : Nat)
    (hj : jobsFor s cid = []) (ha : configIsActive s cid = false) :
    jobsFor (tickSeq s inputs) cid = [] ∧
    resultsFor (tickSeq s inputs) cid = resultsFor s cid ∧
    configIsActive (tickSeq s inputs) cid = false := by
  induction inputs generalizing s with
  | nil => exact ⟨hj, rfl, ha⟩
  | cons t ts ih =>
    have h1 := jobsFor_tick_nil s t.now t.http cid hj
    have h2 := resultsFor_tick_nil s t.now t.http cid hj
    have h3 := configIsActive_tick s t.now t.http cid ha
    rcases ih (tick s t.now t.http) h1 h3 with ⟨i1, i2, i3⟩
    exact ⟨i1, i2.trans h2, i3⟩

/-! ## Claim theorems: activation idempotence -/

/-- C5: for a Configuration owned by the tenant with a future `stop_at`,
`activate` succeeds; calling it again is a no-op success, and afterwards
the active set holds exactly one Job for that `config_id`. -/
theorem activate_idempotent (s : SchedState) (cid : Nat) (tenant : String)
    (now : Nat) (c : Config)
    (hfind : findConfig s cid = some c)
    (hown : c.mcp_api_key = tenant)
    (hwin : now < c.stop_at)
    (hjobs : (jobsFor s cid).length = if c.is_active then 1 else 0) :
    (activate s cid tenant now).1 = .ok ∧
    (activate (activate s cid tenant now).2 cid tenant now).1 = .ok ∧
    (activate (activate s cid tenant now).2 cid tenant now).2 =
      (activate s cid tenant now).2 ∧
    (jobsFor (activate (activate s cid tenant now).2 cid tenant now).2
      cid).length = 1 := by
  have hcid : c.config_id = cid := findConfig_id s cid c hfind
  by_cases hact : c.is_active
  · have hv : activate s cid tenant now = (.ok, s) := by
      simp [activate, hfind, hown, hact]
    have hcount : (jobsFor s cid).length = 1 := by
      rw [hjobs, if_pos hact]
    exact ⟨by simp [hv], by simp [hv], by simp [hv], by simp [hv, hcount]⟩
  · have hnw : ¬ c.stop_at ≤ now := by omega
    have hv1 : activate s cid tenant now =
        (.ok,
         { configs := setActive s.configs cid true,
           results := s.results,
           jobs := { config_id := cid, next_fire_at := max now c.start_at,
                     interval := c.schedule_interval_minutes,
                     stop_at := c.stop_at } :: s.jobs }) := by
      simp [activate, hfind, hown, hact, hnw]
    set s1 := (activate s cid tenant now).2 with hS
    have hfind1 : findConfig s1 cid = some { c with is_active := true } := by
      rw [hS, hv1]
      simp only [findConfig, setActive]
      rw [find?_config_map _ (fun c2 => by by_cases hc2 : c2.config_id = cid <;> simp [hc2])]
      simp only [findConfig] at hfind
      rw [hfind]
      simp [hcid]
    have hv2 : activate s1 cid tenant now = (.ok, s1) := by
      simp [activate, hfind1, hown]
    refine ⟨by rw [hv1], by rw [hv2], by rw [hv2], ?_⟩
    rw [hv2]
    show (jobsFor s1 cid).length = 1
    rw [hS, hv1]
    simp only [jobsFor, List.filter_cons]
    rw [if_pos (by simp)]
    have hz : (jobsFor s cid).length = 0 := by rw [hjobs, if_neg hact]
    simp only [jobsFor] at hz
    simp [List.length_eq_zero.mp hz]

/-- A fixture inactive Configuration for activation. -/
def idleConfig : Config := { demoConfig with is_active := false }

/-- A fixture state holding only the inactive Configuration. -/
def idleState : SchedState :=
  { configs := [idleConfig], results := [], jobs := [] }

/-- C5 witness: activating the fixture Configuration twice yields success
both times and exactly one Job. -/
theorem activate_idempotent_witness :
    (findConfig idleState 7 = some idleConfig ∧
     idleConfig.mcp_api_key = "abc123xyz" ∧
     0 < idleConfig.stop_at ∧
     (jobsFor idleState 7).length = if idleConfig.is_active then 1 else 0) ∧
    ((activate idleState 7 "abc123xyz" 0).1 = .ok ∧
     (activate (activate idleState 7 "abc123xyz" 0).2 7 "abc123xyz" 0).1 = .ok ∧
     (activate (activate idleState 7 "abc123xyz" 0).2 7 "abc123xyz" 0).2 =
       (activate idleState 7 "abc123xyz" 0).2 ∧
     (jobsFor (activate (activate idleState 7 "abc123xyz" 0).2 7 "abc123xyz" 0).2
       7).length = 1) :=
  ⟨⟨by decide, by decide, by decide, by decide⟩,
   activate_idempotent idleState 7 "abc123xyz" 0 idleConfig (by decide)
     (by decide) (by decide) (by decide)⟩

/-! ## Claim theorems: retirement at the stop time -/

/-- C4: when a Configuration's Jobs have all reached `stop_at` (every Job's
`next_fire_at` is below its `stop_at`, the invariant `activate` and `tick`
maintain), the tick that observes `now ≥ stop_at` retires them without
executing: the Configuration becomes inactive, no Job for it survives, its
Results are untouched, and no later tick ever adds a Result or Job for it
or reactivates it.  Moreover (retire-after-write): a Job that fires while
`now < stop_at` but whose advanced `next_fire_at` reaches `stop_at` is
retired immediately after that tick's Result write. -/
theorem stop_retires_and_halts_results (s : SchedState) (now : Nat)
    (http : Nat → HttpOutcome) (cid : Nat) (later : List TickInput)
    (hjob : ∃ j ∈ s.jobs, j.config_id = cid)
    (hall : ∀ j ∈ s.jobs, j.config_id = cid →
      j.next_fire_at < j.stop_at ∧ j.stop_at ≤ now) :
    (configIsActive (tick s now http) cid = false ∧
     jobsFor (tick s now http) cid = [] ∧
     resultsFor (tick s now http) cid = resultsFor s cid) ∧
    (configIsActive (tickSeq (tick s now http) later) cid = false ∧
     jobsFor (tickSeq (tick s now http) later) cid = [] ∧
     resultsFor (tickSeq (tick s now http) later) cid = resultsFor s cid) ∧
    (∀ (s2 : SchedState) (now2 : Nat) (http2 : Nat → HttpOutcome) (j : Job),
      jobsFor s2 j.config_id = [j] → j.fires now2 = true →
      j.stop_at ≤ j.next_fire_at + j.interval →
      configIsActive (tick s2 now2 http2) j.config_id = false ∧
      jobsFor (tick s2 now2 http2) j.config_id = [] ∧
      resultsFor (tick s2 now2 http2) j.config_id =
        resultsFor s2 j.config_id ++ [execJob http2 now2 j]) := by
  rcases hjob with ⟨j0, hj0, hj0id⟩
  rcases hall j0 hj0 hj0id with ⟨hj0win, hj0stop⟩
  have hretired : cid ∈ tickRetiredIds s now := by
    simp only [tickRetiredIds, List.mem_append]
    left
    refine List.mem_map.mpr ⟨j0, ?_, hj0id⟩
    refine List.mem_filter.mpr ⟨hj0, ?_⟩
    simp [Job.due]
    omega
  have hjobs1 : jobsFor (tick s now http) cid = [] := by
    simp only [jobsFor, tick]
    rw [List.filter_eq_nil_iff]
    intro j' hj'
    rcases List.mem_filterMap.mp hj' with ⟨j, hj, hstep⟩
    simp only [decide_eq_true_eq]
    intro hcid
    have hjcid : j.config_id = cid :=
      (stepJob_config_id now j j' hstep) ▸ hcid
    rcases hall j hj hjcid with ⟨hw, hs'⟩
    unfold stepJob at hstep
    rw [if_pos (by simp [Job.due]; omega), if_pos hs'] at hstep
    cases hstep
  have hres1 : resultsFor (tick s now http) cid = resultsFor s cid := by
    simp only [resultsFor, tick, List.filter_append]
    have hnil : (tickResults s now http).filter
        (fun r => r.config_id = cid) = [] := by
      rw [List.filter_eq_nil_iff]
      intro r hrmem
      rcases List.mem_map.mp hrmem with ⟨j, hj, rfl⟩
      simp only [decide_eq_true_eq, execJob_config_id]
      intro hcid
      have hjmem : j ∈ s.jobs := List.mem_of_mem_filter hj
      have hfires := (List.mem_filter.mp hj).2
      rcases hall j hjmem hcid with ⟨hw, hs'⟩
      simp only [Job.fires, Job.due, Bool.and_eq_true, decide_eq_true_eq] at hfires
      omega
    rw [hnil, List.append_nil]
  have hact1 : configIsActive (tick s now http) cid = false := by
    simp only [configIsActive, findConfig, tick]
    rw [find?_config_map _
      (fun c => by by_cases hc : c.config_id ∈ tickRetiredIds s now <;> simp [hc])]
    cases hf : s.configs.find? (fun c => c.config_id = cid) with
    | none => rfl
    | some c =>
      have hcid : c.config_id = cid := by
        have := List.find?_some hf
        simpa using this
      simp only [Option.map_some']
      rw [if_pos (hcid ▸ hretired)]
  rcases retired_tickSeq later (tick s now http) cid hjobs1 hact1 with
    ⟨hseqJobs, hseqRes, hseqAct⟩
  refine ⟨⟨hact1, hjobs1, hres1⟩,
    ⟨hseqAct, hseqJobs, hseqRes.trans hres1⟩, ?_⟩
  intro s2 now2 http2 j hone hfires hadv
  have hjmem : j ∈ s2.jobs := by
    have : j ∈ jobsFor s2 j.config_id := by rw [hone]; exact List.mem_cons_self _ _
    exact List.mem_of_mem_filter this
  have hfires' := hfires
  simp only [Job.fires, Job.due, Bool.and_eq_true, decide_eq_true_eq] at hfires'
  constructor
  · -- configIsActive false: the id is in the retire-after-write list
    have hret2 : j.config_id ∈ tickRetiredIds s2 now2 := by
      simp only [tickRetiredIds, List.mem_append]
      right
      refine List.mem_map.mpr ⟨j, ?_, rfl⟩
      refine List.mem_filter.mpr ⟨hjmem, ?_⟩
      simp [hfires, hadv]
    simp only [configIsActive, findConfig, tick]
    rw [find?_config_map _
      (fun c => by by_cases hc : c.config_id ∈ tickRetiredIds s2 now2 <;> simp [hc])]
    cases hf : s2.configs.find? (fun c => c.config_id = j.config_id) with
    | none => rfl
    | some c =>
      have hcid : c.config_id = j.config_id := by
        have := List.find?_some hf
        simpa using this
      simp only [Option.map_some']
      rw [if_pos (hcid ▸ hret2)]
  constructor
  · -- no surviving Job
    simp only [jobsFor, tick]
    rw [List.filter_eq_nil_iff]
    intro j' hj'
    rcases List.mem_filterMap.mp hj' with ⟨j1, hj1, hstep⟩
    simp only [decide_eq_true_eq]
    intro hcid
    have hj1cid : j1.config_id = j.config_id :=
      (stepJob_config_id now2 j1 j' hstep) ▸ hcid
    have : j1 ∈ jobsFor s2 j.config_id := by
      refine List.mem_filter.mpr ⟨hj1, ?_⟩
      simp [hj1cid]
    rw [hone] at this
    have hj1eq : j1 = j := by simpa using this
    subst hj1eq
    unfold stepJob at hstep
    rw [if_pos (by simp [Job.due]; omega), if_neg (by omega), if_pos hadv] at hstep
    cases hstep
  · -- exactly the one written Result is added
    simp only [resultsFor, tick, List.filter_append]
    congr 1
    simp only [tickResults, firedJobs]
    rw [List.filter_map]
    have hcg : List.filter
          ((fun r : CallResult => decide (r.config_id = j.config_id)) ∘
            execJob http2 now2)
          (List.filter (fun j1 => j1.fires now2) s2.jobs) =
        List.filter (fun j1 : Job => decide (j1.config_id = j.config_id))
          (List.filter (fun j1 => j1.fires now2) s2.jobs) :=
      List.filter_congr (fun j1 _ => by
        simp [Function.comp, execJob_config_id])
    rw [hcg, List.filter_comm]
    have hone' : List.filter (fun j1 : Job => decide (j1.config_id = j.config_id))
        s2.jobs = [j] := hone
    rw [hone']
    simp [hfires]

/-- A fixture Job whose stop time has passed at minute 50. -/
def expiredJob : Job :=
  { config_id := 7, next_fire_at := 40, interval := 3, stop_at := 45 }

/-- A fixture state holding the expired Job and its active Configuration. -/
def expiredState : SchedState :=
  { configs := [{ demoConfig with stop_at := 45 }], results := [],
    jobs := [expiredJob] }

/-- C4 witness: at minute 50 (past `stop_at` = 45) the tick retires the
Job, deactivates the Configuration, writes nothing, and two further ticks
add nothing either. -/
theorem stop_retires_and_halts_results_witness :
    ((∃ j ∈ expiredState.jobs, j.config_id = 7) ∧
     (∀ j ∈ expiredState.jobs, j.config_id = 7 →
       j.next_fire_at < j.stop_at ∧ j.stop_at ≤ 50)) ∧
    ((configIsActive (tick expiredState 50 demoHttp) 7 = false ∧
      jobsFor (tick expiredState 50 demoHttp) 7 = [] ∧
      resultsFor (tick expiredState 50 demoHttp) 7 =
        resultsFor expiredState 7) ∧
     (configIsActive
        (tickSeq (tick expiredState 50 demoHttp)
          [⟨51, demoHttp⟩, ⟨52, demoHttp⟩]) 7 = false ∧
      jobsFor
        (tickSeq (tick expiredState 50 demoHttp)
          [⟨51, demoHttp⟩, ⟨52, demoHttp⟩]) 7 = [] ∧
      resultsFor
        (tickSeq (tick expiredState 50 demoHttp)
          [⟨51, demoHttp⟩, ⟨52, demoHttp⟩]) 7 =
        resultsFor expiredState 7) ∧
     (∀ (s2 : SchedState) (now2 : Nat) (http2 : Nat → HttpOutcome) (j : Job),
       jobsFor s2 j.config_id = [j] → j.fires now2 = true →
       j.stop_at ≤ j.next_fire_at + j.interval →
       configIsActive (tick s2 now2 http2) j.config_id = false ∧
       jobsFor (tick s2 now2 http2) j.config_id = [] ∧
       resultsFor (tick s2 now2 http2) j.config_id =
         resultsFor s2 j.config_id ++ [execJob http2 now2 j])) :=
  ⟨⟨⟨expiredJob, by decide, by decide⟩, by decide⟩,
   stop_retires_and_halts_results expiredState 50 demoHttp 7
     [⟨51, demoHttp⟩, ⟨52, demoHttp⟩]
     ⟨expiredJob, by decide, by decide⟩ (by decide)⟩

/-! ## Monitoring window: result count and timestamps (C3) -/

/-- Modelled from the spec: a freshly validated Configuration for one
monitored endpoint, before activation; the monitoring core's
implementation is not in the repository snapshot. -/
def monitorConfig (cid : Nat) (tenant : String) (i start stop created : Nat) :
    Config :=
  { config_id := cid, mcp_api_key := tenant, name := "monitor",
    method := "GET", base_url := "https://api.example.com", endpoint := "",
    is_active := false, schedule_interval_minutes := i,
    start_at := start, stop_at := stop, created_at := created }

/-- Modelled from the spec: the state right after the fresh Configuration
is activated at `now0` (spec section 4.2 `activate`). -/
def monitorStart (cid : Nat) (tenant : String)
    (i start stop created now0 : Nat) : SchedState :=
  (activate
    { configs := [monitorConfig cid tenant i start stop created],
      results := [], jobs := [] }
    cid tenant now0).2

theorem monitorStart_eq (cid : Nat) (tenant : String)
    (i start stop created now0 : Nat) (h : now0 < stop) :
    monitorStart cid tenant i start stop created now0 =
      { configs := [{ monitorConfig cid tenant i start stop created with
                      is_active := true }],
        results := [],
        jobs := [{ config_id := cid, next_fire_at := max now0 start,
                   interval := i, stop_at := stop }] } := by
  have hns : ¬ stop ≤ now0 := by omega
  simp [monitorStart, activate, findConfig, monitorConfig, setActive, hns]

/-- The invariant of the single-monitor run: all recorded timestamps lie in
the window, and the Job is either alive at its `c`-th boundary (having
written `c` Results, with the boundary still before `stop` and not yet
passed by the clock) or retired with the final count bracketing `stop`. -/
def monitorInv (cid i start stop now0 t : Nat) (s : SchedState) : Prop :=
  (∀ r ∈ resultsFor s cid, start ≤ r.called_at ∧ r.called_at ≤ stop) ∧
  ((∃ c : Nat,
      s.jobs = [{ config_id := cid,
                  next_fire_at := max now0 start + c * i,
                  interval := i, stop_at := stop }] ∧
      (resultsFor s cid).length = c ∧
      max now0 start + c * i < stop ∧
      t ≤ max now0 start + c * i) ∨
    (s.jobs = [] ∧
     1 ≤ (resultsFor s cid).length ∧
     max now0 start + ((resultsFor s cid).length - 1) * i < stop ∧
     stop ≤ max now0 start + (resultsFor s cid).length * i))

theorem monitorInv_tick (cid i start stop now0 t : Nat) (s : SchedState)
    (http : Nat → HttpOutcome) (hi : 0 < i)
    (hinv : monitorInv cid i start stop now0 t s) :
    monitorInv cid i start stop now0 (t + 1) (tick s t http) := by
  rcases hinv with ⟨hbound, hcases⟩
  rcases hcases with ⟨c, hjobs, hlen, hwin, hle⟩ | ⟨hjobs, hpos, hlow, hhigh⟩
  · set J : Job := { config_id := cid,
                     next_fire_at := max now0 start + c * i,
                     interval := i, stop_at := stop } with hJ
    by_cases hdue : max now0 start + c * i ≤ t
    · -- the boundary fires at this tick
      have ht : t = max now0 start + c * i := by omega
      have hfire : J.fires t = true := by
        simp only [Job.fires, Job.due, hJ, Bool.and_eq_true, decide_eq_true_eq]
        omega
      have hfiredJ : firedJobs s t = [J] := by
        simp [firedJobs, hjobs, hfire]
      have htr : tickResults s t http = [execJob http t J] := by
        simp [tickResults, hfiredJ]
      have hresTick : resultsFor (tick s t http) cid =
          resultsFor s cid ++ [execJob http t J] := by
        simp [resultsFor, tick, htr, List.filter_append, execJob_config_id, hJ]
      have hcalled : (execJob http t J).called_at = t := by
        unfold execJob
        rcases http J.config_id with ⟨st, body⟩ | ⟨msg⟩ <;> rfl
      have hboundNew : ∀ r ∈ resultsFor (tick s t http) cid,
          start ≤ r.called_at ∧ r.called_at ≤ stop := by
        rw [hresTick]
        intro r hr
        rcases List.mem_append.mp hr with hr | hr
        · exact hbound r hr
        · have hre : r = execJob http t J := by simpa using hr
          subst hre
          rw [hcalled]
          have hsm : start ≤ max now0 start := Nat.le_max_right _ _
          omega
      have hlenNew : (resultsFor (tick s t http) cid).length = c + 1 := by
        rw [hresTick]
        simp [hlen]
      have hd : J.due t = true := by
        simp only [Job.due, hJ, decide_eq_true_eq]
        omega
      have h1 : ¬ (J.stop_at ≤ t) := by
        simp only [hJ]
        omega
      by_cases hret : stop ≤ max now0 start + c * i + i
      · have h2 : J.stop_at ≤ J.next_fire_at + J.interval := by
          simp only [hJ]
          omega
        have hstep : stepJob t J = none := by
          unfold stepJob
          rw [if_pos hd, if_neg h1, if_pos h2]
        have hjobs' : (tick s t http).jobs = [] := by
          simp [tick, hjobs, List.filterMap_cons, hstep]
        refine ⟨hboundNew, Or.inr ⟨hjobs', ?_, ?_, ?_⟩⟩
        · rw [hlenNew]
          omega
        · rw [hlenNew]
          simpa using hwin
        · rw [hlenNew]
          have hmul : (c + 1) * i = c * i + i := by ring
          omega
      · have h2 : ¬ (J.stop_at ≤ J.next_fire_at + J.interval) := by
          simp only [hJ]
          omega
        have hstep : stepJob t J =
            some { config_id := cid,
                   next_fire_at := max now0 start + (c + 1) * i,
                   interval := i, stop_at := stop } := by
          unfold stepJob
          rw [if_pos hd, if_neg h1, if_neg h2]
          have hmul : max now0 start + c * i + i =
              max now0 start + (c + 1) * i := by ring
          simp [hJ, hmul]
        have hjobs' : (tick s t http).jobs =
            [{ config_id := cid,
               next_fire_at := max now0 start + (c + 1) * i,
               interval := i, stop_at := stop }] := by
          simp [tick, hjobs, List.filterMap_cons, hstep]
        refine ⟨hboundNew, Or.inl ⟨c + 1, hjobs', hlenNew, ?_, ?_⟩⟩
        · have hmul : (c + 1) * i = c * i + i := by ring
          omega
        · have hmul : (c + 1) * i = c * i + i := by ring
          omega
    · -- not yet due: the Job waits
      have hndue : J.fires t = false := by
        simp only [Job.fires, Job.due, hJ, Bool.and_eq_true,
          Bool.and_eq_false_iff, decide_eq_true_eq, decide_eq_false_iff_not]
        left
        omega
      have hfired : firedJobs s t = [] := by
        simp [firedJobs, hjobs, hndue]
      have htr : tickResults s t http = [] := by
        simp [tickResults, hfired]
      have hres : resultsFor (tick s t http) cid = resultsFor s cid := by
        simp [resultsFor, tick, htr]
      have hstep : stepJob t J = some J := by
        unfold stepJob
        rw [if_neg (by simp only [Job.due, hJ, decide_eq_true_eq]; omega)]
      have hjobs' : (tick s t http).jobs = [J] := by
        simp [tick, hjobs, List.filterMap_cons, hstep]
      exact ⟨hres ▸ hbound,
        Or.inl ⟨c, hjobs', by rw [hres, hlen], hwin, by omega⟩⟩
  · -- retired: nothing changes
    have hfired : firedJobs s t = [] := by
      simp [firedJobs, hjobs]
    have htr : tickResults s t http = [] := by
      simp [tickResults, hfired]
    have hres : resultsFor (tick s t http) cid = resultsFor s cid := by
      simp [resultsFor, tick, htr]
    have hjobs' : (tick s t http).jobs = [] := by
      simp [tick, hjobs]
    exact ⟨hres ▸ hbound, Or.inr ⟨hjobs', by rw [hres]; exact hpos,
      by rw [hres]; exact hlow, by rw [hres]; exact hhigh⟩⟩

theorem monitorInv_runTicks (cid i start stop now0 : Nat)
    (http : Nat → Nat → HttpOutcome) (hi : 0 < i) :
    ∀ (n t : Nat) (s : SchedState), monitorInv cid i start stop now0 t s →
      monitorInv cid i start stop now0 (t + n) (runTicks s http t n) := by
  intro n
  induction n with
  | zero =>
    intro t s h
    simpa using h
  | succ n ih =>
    intro t s h
    have h1 := monitorInv_tick cid i start stop now0 t s (http t) hi h
    have h2 := ih (t + 1) (tick s t (http t)) h1
    have heq : t + (n + 1) = (t + 1) + n := by omega
    rw [heq]
    exact h2

/-- C3: for an activated monitor with interval `i` and window
`[start, stop]`, once the scheduler (ticking every minute from `now0`) has
run past `stop`, the number of Results recorded equals
`floor((stop - max(now0, start)) / i)` within one unit of tolerance, and
every Result's `called_at` lies within `[start, stop]`. -/
theorem monitor_result_count_window (cid : Nat) (tenant : String)
    (i start stop created now0 n : Nat) (http : Nat → Nat → HttpOutcome)
    (hi : 0 < i) (hss : start < stop) (hn0 : now0 < stop)
    (hrun : stop ≤ now0 + n) :
    ((stop - max now0 start) / i ≤
       (resultsFor (runTicks (monitorStart cid tenant i start stop created now0)
          http now0 n) cid).length ∧
     (resultsFor (runTicks (monitorStart cid tenant i start stop created now0)
          http now0 n) cid).length ≤ (stop - max now0 start) / i + 1) ∧
    (∀ r ∈ resultsFor (runTicks (monitorStart cid tenant i start stop created now0)
          http now0 n) cid,
      start ≤ r.called_at ∧ r.called_at ≤ stop) := by
  have hinv0 : monitorInv cid i start stop now0 now0
      (monitorStart cid tenant i start stop created now0) := by
    rw [monitorStart_eq cid tenant i start stop created now0 hn0]
    refine ⟨?_, Or.inl ⟨0, ?_, ?_, ?_, ?_⟩⟩
    · intro r hr
      simp [resultsFor] at hr
    · simp
    · simp [resultsFor]
    · simp only [Nat.zero_mul, Nat.add_zero]
      exact Nat.max_lt.mpr ⟨hn0, hss⟩
    · simp only [Nat.zero_mul, Nat.add_zero]
      exact Nat.le_max_left _ _
  have hinvN := monitorInv_runTicks cid i start stop now0 http hi n now0 _ hinv0
  rcases hinvN with ⟨hbound, halive | hdone⟩
  · exfalso
    rcases halive with ⟨c, hjobs, hlen, hwin, hle⟩
    omega
  · rcases hdone with ⟨hjobs, hpos, hlow, hhigh⟩
    refine ⟨⟨?_, ?_⟩, hbound⟩
    · have h1 : stop - max now0 start ≤
          (resultsFor (runTicks (monitorStart cid tenant i start stop created now0)
            http now0 n) cid).length * i := by
        omega
      calc (stop - max now0 start) / i
          ≤ ((resultsFor (runTicks (monitorStart cid tenant i start stop created now0)
              http now0 n) cid).length * i) / i := Nat.div_le_div_right h1
        _ = (resultsFor (runTicks (monitorStart cid tenant i start stop created now0)
              http now0 n) cid).length := Nat.mul_div_cancel _ hi
    · have h2 : ((resultsFor (runTicks (monitorStart cid tenant i start stop created now0)
          http now0 n) cid).length - 1) * i ≤ stop - max now0 start := by
        omega
      have h3 := (Nat.le_div_iff_mul_le hi).mpr h2
      omega

/-- C3 witness: the spec's scenario — interval 1, `start = now0 = 0`,
`stop = 3`, four ticks — records exactly three Results, all inside the
window. -/
theorem monitor_result_count_window_witness :
    (0 < 1 ∧ 0 < 3 ∧ 0 < 3 ∧ 3 ≤ 0 + 4) ∧
    (((3 - max 0 0) / 1 ≤
        (resultsFor (runTicks (monitorStart 9 "abc123xyz" 1 0 3 0 0)
          (fun _ _ => .response 200 "ok") 0 4) 9).length ∧
      (resultsFor (runTicks (monitorStart 9 "abc123xyz" 1 0 3 0 0)
          (fun _ _ => .response 200 "ok") 0 4) 9).length ≤
        (3 - max 0 0) / 1 + 1) ∧
     (∀ r ∈ resultsFor (runTicks (monitorStart 9 "abc123xyz" 1 0 3 0 0)
          (fun _ _ => .response 200 "ok") 0 4) 9,
        0 ≤ r.called_at ∧ r.called_at ≤ 3)) ∧
    (resultsFor (runTicks (monitorStart 9 "abc123xyz" 1 0 3 0 0)
        (fun _ _ => .response 200 "ok") 0 4) 9).length = 3 :=
  ⟨⟨by decide, by decide, by decide, by decide⟩,
   monitor_result_count_window 9 "abc123xyz" 1 0 3 0 0 4
     (fun _ _ => .response 200 "ok") (by decide) (by decide) (by decide)
     (by decide),
   by decide⟩

end Hermes
